import Mathlib

/-!
# Tableau project client and resource

A shallow embedding of `tableau/project.go` (the REST client operations on
projects) and of `tableau/project_resource.go` (the Terraform resource built on
them), followed by theorems about pagination, error propagation, the request
bodies and the state refresh policy.

Conventions of the embedding.

* A Go result `(v, err)` is an `Outcome`: `ret v` for `(v, nil)`, `err e` for
  `(nil, e)`.  `panicked` is a run that the Go runtime aborts (a run-time panic
  or a failed allocation) and `timeout` means that the loop was still running
  when the fuel of the model ran out.
* Every client operation also yields the list of HTTP requests it handed to
  the transport, in the order in which they were sent.
* Go `int` is the 64 bit signed integer: `page++` and `pageNumber + 1` wrap.
* `fmt.Printf` (progress output) and `time.Sleep` have no effect on results
  and are left out.
* The resource is configured: `r.client` is the client passed to the
  operations of the embedding.
-/

namespace Tableau

/-! ## Go values -/

/-- A Go `error`, identified by the text that its `Error()` method returns. -/
structure GoError where
  Error : String
deriving DecidableEq, Repr

/-- Result of running a Go function that returns `(value, error)`. -/
inductive Outcome (α : Type) where
  | ret (v : α)
  | err (e : GoError)
  | panicked
  | timeout
deriving DecidableEq, Repr

/-- Largest value of a Go `int` (64 bit). -/
def maxInt : Int := 2 ^ 63 - 1

/-- Smallest value of a Go `int` (64 bit). -/
def minInt : Int := -(2 ^ 63)

/-- Two's complement wrap-around of a mathematical integer into a Go `int`. -/
def wrapInt (n : Int) : Int := (n + 2 ^ 63) % 2 ^ 64 - 2 ^ 63

/-! ## JSON documents -/

/-- Abstract syntax of the JSON documents that `json.Marshal` produces for the
request types: strings and objects (members in order of emission). -/
inductive Json where
  | str (s : String)
  | obj (members : List (String × Json))

/-- Member `key` of a JSON object, if the document is an object that has it. -/
def Json.member (key : String) : Json → Option Json
  | Json.str _ => none
  | Json.obj members => members.lookup key

/-- Whether the JSON object has a member called `key`. -/
def Json.hasMember (key : String) (j : Json) : Bool :=
  (j.member key).isSome

/-! ## Entities (`project.go` lines 11-35) -/

/-- Modelled from the spec: the declaration of `Owner` is not part of the
sources at hand.  The spec calls it an entity reference holding an identifier
string, and `project.go` builds it as `Owner{ID: ownerId}` and reads
`project.Owner.ID`. -/
structure Owner where
  ID : String
deriving DecidableEq, Repr

/-- Go struct `Project`. -/
structure Project where
  ID : String
  Name : String
  ParentProjectID : String
  Description : String
  ContentPermissions : String
  Owner : Tableau.Owner
deriving DecidableEq, Repr

/-- Go struct `ProjectRequest`. -/
structure ProjectRequest where
  Project : Tableau.Project
deriving DecidableEq, Repr

/-- Go struct `ProjectResponse`. -/
structure ProjectResponse where
  Project : Tableau.Project
deriving DecidableEq, Repr

/-- Go struct `ProjectsResponse`. -/
structure ProjectsResponse where
  Projects : List Tableau.Project
deriving DecidableEq, Repr

/-- Modelled from the spec: the declaration of `PaginationDetails` is not part
of the sources at hand.  The spec describes the envelope as the three numbers
`pageNumber`, `totalPageCount` and `totalAvailable`, carried as text that may be
unparseable.  The client only hands the value to `GetPaginationNumbers`. -/
structure PaginationDetails where
  pageNumber : String
  totalPageCount : String
  totalAvailable : String
deriving DecidableEq, Repr

/-- Go struct `ProjectListResponse`. -/
structure ProjectListResponse where
  ProjectsResponse : Tableau.ProjectsResponse
  Pagination : PaginationDetails
deriving DecidableEq, Repr

/-! ## Requests and the environment of the client -/

/-- An HTTP request as built by `http.NewRequest(method, url, body)`. -/
structure Request where
  Method : String
  URL : String
  Body : Option Json

/-- Everything the client code calls that is not defined in `project.go`:
the standard library and the parts of the package kept in other files.  The
remote listing does not change while an operation runs: the answer of the
transport depends on the request only. -/
structure World where
  /-- Error of `http.NewRequest(method, url, _)`, if it rejects the arguments. -/
  newRequestError : String → String → Option GoError
  /-- Method `c.doRequest(req)`: the transport, returning the response body. -/
  doRequest : Request → Except GoError String
  /-- Decoder `json.Unmarshal(body, &projectListResponse)`. -/
  unmarshalList : String → Except GoError ProjectListResponse
  /-- Decoder `json.Unmarshal(body, &projectResponse)`. -/
  unmarshalProject : String → Except GoError ProjectResponse
  /-- Function `GetPaginationNumbers`, returning
  `(pageNumber, totalPageCount, totalAvailable)` or an error. -/
  GetPaginationNumbers : PaginationDetails → Except GoError (Int × Int × Int)
  /-- Encoding that `json.Marshal` gives to a value of type `Owner`. -/
  ownerJson : Owner → Json
  /-- Largest capacity `n` that `make([]Project, 0, n)` provides.  Above it the
  runtime aborts the run: `makeslice` panics with `cap out of range` once `n`
  times the size of a `Project` exceeds the limit of the allocator (`2 ^ 48`
  bytes and 96 bytes on linux/amd64, hence 2932031007402), and a smaller
  request that the machine cannot satisfy is fatal as well. -/
  maxSliceCap : Int

/-- Go struct `Client`, reduced to the field that `project.go` reads. -/
structure Client where
  ApiUrl : String

/-- Call `http.NewRequest(method, url, body)`. -/
def NewRequest (w : World) (method url : String) (body : Option Json) :
    Except GoError Request :=
  match w.newRequestError method url with
  | some e => Except.error e
  | none => Except.ok ⟨method, url, body⟩

/-- URL `fmt.Sprintf("%s/projects", c.ApiUrl)`. -/
def listUrl (c : Client) : String :=
  c.ApiUrl ++ "/projects"

/-- URL `fmt.Sprintf("%s/projects?pageNumber=%d", c.ApiUrl, page)`. -/
def pageUrl (c : Client) (page : Int) : String :=
  c.ApiUrl ++ "/projects?pageNumber=" ++ toString page

/-- URL `fmt.Sprintf("%s/projects/%s", c.ApiUrl, projectID)`. -/
def projectUrl (c : Client) (projectID : String) : String :=
  c.ApiUrl ++ "/projects/" ++ projectID

/-- The request for the first page: `GET {ApiUrl}/projects`. -/
def listRequest (c : Client) : Request :=
  ⟨"GET", listUrl c, none⟩

/-- The request for page `page`: `GET {ApiUrl}/projects?pageNumber={page}`. -/
def pageRequest (c : Client) (page : Int) : Request :=
  ⟨"GET", pageUrl c page, none⟩

/-- Prefix a trace with a request that was sent before the rest of the run. -/
def sent {α : Type} (req : Request) (run : Outcome α × List Request) :
    Outcome α × List Request :=
  (run.1, req :: run.2)

/-! ## Encoding of the request body (struct tags of `project.go` lines 11-22) -/

/-- A string field tagged `json:"key,omitempty"`: the member is emitted unless
the string is empty. -/
def omitemptyString (key value : String) : List (String × Json) :=
  if value = "" then [] else [(key, Json.str value)]

/-- Encoding `json.Marshal` gives to a `Project`.  The five string fields are
tagged `omitempty`; so is `Owner`, but a struct value is never empty for
`encoding/json`, hence the member `owner` is always emitted. -/
def marshalProject (w : World) (p : Project) : Json :=
  Json.obj (omitemptyString "id" p.ID ++ omitemptyString "name" p.Name ++
    omitemptyString "parentProjectId" p.ParentProjectID ++
    omitemptyString "description" p.Description ++
    omitemptyString "contentPermissions" p.ContentPermissions ++
    [("owner", w.ownerJson p.Owner)])

/-- Encoding `json.Marshal` gives to a `ProjectRequest`. -/
def marshalProjectRequest (w : World) (r : ProjectRequest) : Json :=
  Json.obj [("project", marshalProject w r.Project)]

/-! ## Client operations (`project.go`) -/

/-- The `for page := ...; page <= totalPageCount; page++` loop of
`GetProjects` (lines 62-78), entered with the counter `page` and the items
collected so far. -/
def GetProjects.loop (w : World) (c : Client) (totalPageCount : Int) :
    Nat → Int → List Project → Outcome (List Project) × List Request
  | 0, _, _ => (Outcome.timeout, [])
  | fuel + 1, page, allProjects =>
    if page ≤ totalPageCount then
      match NewRequest w "GET" (pageUrl c page) none with
      | Except.error e => (Outcome.err e, [])
      | Except.ok req =>
        match w.doRequest req with
        | Except.error e => (Outcome.err e, [req])
        | Except.ok body =>
          match w.unmarshalList body with
          | Except.error e => (Outcome.err e, [req])
          | Except.ok projectListResponse =>
            sent req (GetProjects.loop w c totalPageCount fuel (wrapInt (page + 1))
              (allProjects ++ projectListResponse.ProjectsResponse.Projects))
    else (Outcome.ret allProjects, [])

/-- Method `Client.GetProjects` (lines 37-81).  `make([]Project, 0,
totalAvailable)` (line 59) panics when the capacity is negative and when it is
above what the runtime provides. -/
def GetProjects (w : World) (c : Client) (fuel : Nat) :
    Outcome (List Project) × List Request :=
  match NewRequest w "GET" (listUrl c) none with
  | Except.error e => (Outcome.err e, [])
  | Except.ok req =>
    match w.doRequest req with
    | Except.error e => (Outcome.err e, [req])
    | Except.ok body =>
      match w.unmarshalList body with
      | Except.error e => (Outcome.err e, [req])
      | Except.ok projectListResponse =>
        match w.GetPaginationNumbers projectListResponse.Pagination with
        | Except.error e => (Outcome.err e, [req])
        | Except.ok (pageNumber, totalPageCount, totalAvailable) =>
          if totalAvailable < 0 ∨ w.maxSliceCap < totalAvailable then
            (Outcome.panicked, [req])
          else
            sent req (GetProjects.loop w c totalPageCount fuel (wrapInt (pageNumber + 1))
              projectListResponse.ProjectsResponse.Projects)

/-- The scan `for i, project := range ... { if project.ID == projectID {
return &...[i], nil } }` (lines 105-109 and 127-131): the first item of the
page whose ID is `projectID`. -/
def findProject (projectID : String) (projects : List Project) : Option Project :=
  projects.find? (fun project => project.ID == projectID)

/-- The `for page := ...; page <= totalPageCount; page++` loop of `GetProject`
(lines 111-132).  `ret (some p)` is the `return` from inside the loop,
`ret none` is the loop running to its end. -/
def GetProject.loop (w : World) (c : Client) (projectID : String) (totalPageCount : Int) :
    Nat → Int → Outcome (Option Project) × List Request
  | 0, _ => (Outcome.timeout, [])
  | fuel + 1, page =>
    if page ≤ totalPageCount then
      match NewRequest w "GET" (pageUrl c page) none with
      | Except.error e => (Outcome.err e, [])
      | Except.ok req =>
        match w.doRequest req with
        | Except.error e => (Outcome.err e, [req])
        | Except.ok body =>
          match w.unmarshalList body with
          | Except.error e => (Outcome.err e, [req])
          | Except.ok projectListResponse =>
            match findProject projectID projectListResponse.ProjectsResponse.Projects with
            | some project => (Outcome.ret (some project), [req])
            | none => sent req (GetProject.loop w c projectID totalPageCount fuel (wrapInt (page + 1)))
    else (Outcome.ret none, [])

/-- The error `fmt.Errorf("Did not find project ID %s", projectID)`. -/
def notFoundError (projectID : String) : GoError :=
  ⟨"Did not find project ID " ++ projectID⟩

/-- Method `Client.GetProject` (lines 83-135). -/
def GetProject (w : World) (c : Client) (fuel : Nat) (projectID : String) :
    Outcome Project × List Request :=
  match NewRequest w "GET" (listUrl c) none with
  | Except.error e => (Outcome.err e, [])
  | Except.ok req =>
    match w.doRequest req with
    | Except.error e => (Outcome.err e, [req])
    | Except.ok body =>
      match w.unmarshalList body with
      | Except.error e => (Outcome.err e, [req])
      | Except.ok projectListResponse =>
        match w.GetPaginationNumbers projectListResponse.Pagination with
        | Except.error e => (Outcome.err e, [req])
        | Except.ok (pageNumber, totalPageCount, _) =>
          match findProject projectID projectListResponse.ProjectsResponse.Projects with
          | some project => (Outcome.ret project, [req])
          | none =>
            match GetProject.loop w c projectID totalPageCount fuel (wrapInt (pageNumber + 1)) with
            | (Outcome.ret (some project), trace) => (Outcome.ret project, req :: trace)
            | (Outcome.ret none, trace) => (Outcome.err (notFoundError projectID), req :: trace)
            | (Outcome.err e, trace) => (Outcome.err e, req :: trace)
            | (Outcome.panicked, trace) => (Outcome.panicked, req :: trace)
            | (Outcome.timeout, trace) => (Outcome.timeout, req :: trace)

/-- The entity `newProject` that `CreateProject` builds (lines 139-150): the
owner is assigned only under the guard `ownerId != ""`; otherwise the field
keeps the zero value of `Owner`. -/
def CreateProject.newProject (name parentProjectId description contentPermissions
    ownerId : String) : Project :=
  let newProject : Project :=
    { ID := "", Name := name, ParentProjectID := parentProjectId,
      Description := description, ContentPermissions := contentPermissions,
      Owner := { ID := "" } }
  if ownerId != "" then { newProject with Owner := { ID := ownerId } } else newProject

/-- Send a request whose response holds one project: `c.doRequest(req)` and
`json.Unmarshal(body, &projectResponse)` (lines 165-177 and 205-216). -/
def submitProject (w : World) (req : Request) : Outcome Project × List Request :=
  match w.doRequest req with
  | Except.error e => (Outcome.err e, [req])
  | Except.ok body =>
    match w.unmarshalProject body with
    | Except.error e => (Outcome.err e, [req])
    | Except.ok projectResponse => (Outcome.ret projectResponse.Project, [req])

/-- Method `Client.CreateProject` (lines 137-178). -/
def CreateProject (w : World) (c : Client) (name parentProjectId description
    contentPermissions ownerId : String) : Outcome Project × List Request :=
  let projectRequest : ProjectRequest :=
    ⟨CreateProject.newProject name parentProjectId description contentPermissions ownerId⟩
  let newProjectJson := marshalProjectRequest w projectRequest
  match NewRequest w "POST" (listUrl c) (some newProjectJson) with
  | Except.error e => (Outcome.err e, [])
  | Except.ok req => submitProject w req

/-- The entity `newProject` that `UpdateProject` builds (lines 181-190). -/
def UpdateProject.newProject (name parentProjectId description contentPermissions
    ownerId : String) : Project :=
  let newOwner : Owner := { ID := ownerId }
  { ID := "", Name := name, ParentProjectID := parentProjectId,
    Description := description, ContentPermissions := contentPermissions,
    Owner := newOwner }

/-- Method `Client.UpdateProject` (lines 180-217). -/
def UpdateProject (w : World) (c : Client) (projectID name parentProjectId description
    contentPermissions ownerId : String) : Outcome Project × List Request :=
  let projectRequest : ProjectRequest :=
    ⟨UpdateProject.newProject name parentProjectId description contentPermissions ownerId⟩
  let newProjectJson := marshalProjectRequest w projectRequest
  match NewRequest w "PUT" (projectUrl c projectID) (some newProjectJson) with
  | Except.error e => (Outcome.err e, [])
  | Except.ok req => submitProject w req

/-! ## Terraform resource (`project_resource.go`) -/

/-- Framework type `types.String`: a string attribute that is null, unknown
or known. -/
inductive TfString where
  | null
  | unknown
  | value (s : String)
deriving DecidableEq, Repr

/-- Framework function `types.StringValue`. -/
def types.StringValue (s : String) : TfString :=
  TfString.value s

/-- Framework method `ValueString`: the known string, or `""` when the
attribute is null or unknown. -/
def TfString.ValueString : TfString → String
  | TfString.value s => s
  | _ => ""

/-- Go struct `projectResourceModel`. -/
structure projectResourceModel where
  ID : TfString
  Name : TfString
  ParentProjectID : TfString
  Description : TfString
  ContentPermissions : TfString
  OwnerID : TfString
  LastUpdated : TfString
deriving DecidableEq, Repr

/-- Severity of a framework diagnostic. -/
inductive Severity where
  | Error
  | Warning
deriving DecidableEq, Repr

/-- A framework diagnostic. -/
structure Diagnostic where
  Severity : Tableau.Severity
  Summary : String
  Detail : String
deriving DecidableEq, Repr

/-- Framework type `diag.Diagnostics`. -/
abbrev Diagnostics := List Diagnostic

/-- Framework method `Diagnostics.HasError`. -/
def Diagnostics.HasError (diags : Diagnostics) : Bool :=
  diags.any (fun d => d.Severity == Severity.Error)

/-- Framework method `Diagnostics.Append`: the diagnostics are added one by one,
skipping those already contained. -/
def Diagnostics.Append (diags : Diagnostics) (added : List Diagnostic) : Diagnostics :=
  added.foldl (fun acc d => if d ∈ acc then acc else acc ++ [d]) diags

/-- Framework method `Diagnostics.AddError(summary, detail)`. -/
def Diagnostics.AddError (diags : Diagnostics) (summary detail : String) : Diagnostics :=
  Diagnostics.Append diags [⟨Severity.Error, summary, detail⟩]

/-- The response of a resource operation, as far as the operations write it:
the state to record (`none` once `State.RemoveResource` was called) and the
diagnostics. -/
structure Response where
  State : Option projectResourceModel
  Diagnostics : Tableau.Diagnostics
deriving DecidableEq, Repr

/-- Framework method `resp.State.Set(ctx, model)`: a model of string attributes
always converts, so the state is recorded and no diagnostic comes back. -/
def Response.SetState (resp : Response) (model : projectResourceModel) : Response :=
  { resp with State := some model }

/-- Framework method `resp.State.RemoveResource(ctx)`. -/
def Response.RemoveResource (resp : Response) : Response :=
  { resp with State := none }

/-- Method `projectResource.Read` (lines 135-163).  `state` and `diags` are
what `req.State.Get(ctx, &state)` produced, `resp` is the response as the
framework handed it in. -/
def Read (w : World) (c : Client) (fuel : Nat) (state : projectResourceModel)
    (diags : List Diagnostic) (resp : Response) : Outcome Response × List Request :=
  let resp := { resp with Diagnostics := Diagnostics.Append resp.Diagnostics diags }
  if Diagnostics.HasError resp.Diagnostics then (Outcome.ret resp, [])
  else
    match GetProject w c fuel state.ID.ValueString with
    | (Outcome.err _, trace) => (Outcome.ret resp.RemoveResource, trace)
    | (Outcome.panicked, trace) => (Outcome.panicked, trace)
    | (Outcome.timeout, trace) => (Outcome.timeout, trace)
    | (Outcome.ret project, trace) =>
      let state := { state with ID := types.StringValue project.ID }
      let state := { state with Name := types.StringValue project.Name }
      let state :=
        if project.ParentProjectID != "" then
          { state with ParentProjectID := types.StringValue project.ParentProjectID }
        else state
      let state := { state with OwnerID := types.StringValue project.Owner.ID }
      let state := { state with Description := types.StringValue project.Description }
      let state :=
        { state with ContentPermissions := types.StringValue project.ContentPermissions }
      (Outcome.ret (resp.SetState state), trace)

/-- Method `projectResource.Update` (lines 165-212).  `plan` and `diags` are
what `req.Plan.Get(ctx, &plan)` produced, `now` is
`time.Now().Format(time.RFC850)`. -/
def Update (w : World) (c : Client) (fuel : Nat) (now : String) (plan : projectResourceModel)
    (diags : List Diagnostic) (resp : Response) : Outcome Response × List Request :=
  let resp := { resp with Diagnostics := Diagnostics.Append resp.Diagnostics diags }
  if Diagnostics.HasError resp.Diagnostics then (Outcome.ret resp, [])
  else
    let project : Project :=
      { ID := "",
        Name := plan.Name.ValueString,
        Description := plan.Description.ValueString,
        ContentPermissions := plan.ContentPermissions.ValueString,
        ParentProjectID := plan.ParentProjectID.ValueString,
        Owner := { ID := plan.OwnerID.ValueString } }
    match UpdateProject w c plan.ID.ValueString project.Name project.ParentProjectID
        project.Description project.ContentPermissions project.Owner.ID with
    | (Outcome.err e, trace) =>
      (Outcome.ret { resp with
        Diagnostics := Diagnostics.AddError resp.Diagnostics "Error Updating Tableau Project"
          ("Could not update project, unexpected error: " ++ e.Error) }, trace)
    | (Outcome.panicked, trace) => (Outcome.panicked, trace)
    | (Outcome.timeout, trace) => (Outcome.timeout, trace)
    | (Outcome.ret _, trace) =>
      match GetProject w c fuel plan.ID.ValueString with
      | (Outcome.err e, trace2) =>
        (Outcome.ret { resp with
          Diagnostics := Diagnostics.AddError resp.Diagnostics "Error Reading Tableau Project"
            ("Could not read Tableau project ID " ++ plan.ID.ValueString ++ ": " ++ e.Error) },
          trace ++ trace2)
      | (Outcome.panicked, trace2) => (Outcome.panicked, trace ++ trace2)
      | (Outcome.timeout, trace2) => (Outcome.timeout, trace ++ trace2)
      | (Outcome.ret updatedProject, trace2) =>
        let plan := { plan with Name := types.StringValue updatedProject.Name }
        let plan :=
          if project.ParentProjectID != "" then
            { plan with ParentProjectID := types.StringValue updatedProject.ParentProjectID }
          else plan
        let plan := { plan with OwnerID := types.StringValue updatedProject.Owner.ID }
        let plan := { plan with Description := types.StringValue updatedProject.Description }
        let plan :=
          { plan with ContentPermissions := types.StringValue updatedProject.ContentPermissions }
        let plan := { plan with LastUpdated := types.StringValue now }
        (Outcome.ret (resp.SetState plan), trace ++ trace2)

/-! ## A concrete listing: five projects on three pages -/

/-- A client pointed at an example endpoint. -/
def demoClient : Client :=
  ⟨"https://tableau.example/api"⟩

/-- A project of the example listing. -/
def demoProject (id name : String) : Project :=
  { ID := id, Name := name, ParentProjectID := "", Description := "",
    ContentPermissions := "ManagedByOwner", Owner := { ID := "owner-123" } }

/-- Page 1 of the example listing: two of five items, three pages in all. -/
def demoPage1 : ProjectListResponse :=
  ⟨⟨[demoProject "p1" "Sales", demoProject "p2" "Finance"]⟩, ⟨"1", "3", "5"⟩⟩

/-- Page 2 of the example listing.  Its envelope is unparseable. -/
def demoPage2 : ProjectListResponse :=
  ⟨⟨[demoProject "p3" "Legal", demoProject "p4" "Support"]⟩, ⟨"two", "", ""⟩⟩

/-- Page 3 of the example listing.  Its envelope is unparseable. -/
def demoPage3 : ProjectListResponse :=
  ⟨⟨[demoProject "p5" "Research"]⟩, ⟨"three", "", ""⟩⟩

/-- The pages of the example listing by loop iteration: iteration 0 fetches
page 2, iteration 1 fetches page 3. -/
def demoPages : Nat → ProjectListResponse
  | 0 => demoPage2
  | _ => demoPage3

/-- The pages of the example listing by page number. -/
def demoPageAt (page : Int) : ProjectListResponse :=
  if page = 2 then demoPage2 else demoPage3

/-- A transport that answers every request with its own URL as the body, and
decoders that know the three pages of the example listing. -/
def demoWorld : World where
  newRequestError := fun _ _ => none
  doRequest := fun req => Except.ok req.URL
  unmarshalList := fun body =>
    if body = "https://tableau.example/api/projects" then Except.ok demoPage1
    else if body = "https://tableau.example/api/projects?pageNumber=2" then Except.ok demoPage2
    else if body = "https://tableau.example/api/projects?pageNumber=3" then Except.ok demoPage3
    else Except.error ⟨"unexpected end of JSON input"⟩
  unmarshalProject := fun _ => Except.ok ⟨demoProject "p1" "Sales"⟩
  GetPaginationNumbers := fun d =>
    if d = ⟨"1", "3", "5"⟩ then Except.ok (1, 3, 5)
    else Except.error ⟨"strconv.Atoi: invalid syntax"⟩
  ownerJson := fun o => Json.obj (omitemptyString "id" o.ID)
  maxSliceCap := 2932031007402

/-- A listing that answers every request with page 1 of the example listing
and whose envelope always gives the numbers `pageNumber`, `totalPageCount` and
`totalAvailable`. -/
def echoWorld (pageNumber totalPageCount totalAvailable : Int) : World :=
  { demoWorld with
    unmarshalList := fun _ => Except.ok demoPage1
    GetPaginationNumbers := fun _ => Except.ok (pageNumber, totalPageCount, totalAvailable) }

/-- A recorded state of the resource for project `p3` of the example listing,
with a parent recorded earlier. -/
def demoState : projectResourceModel :=
  { ID := TfString.value "p3", Name := TfString.value "Old name",
    ParentProjectID := TfString.value "root", Description := TfString.null,
    ContentPermissions := TfString.value "LockedToProject", OwnerID := TfString.unknown,
    LastUpdated := TfString.value "Monday, 02-Nov-26 10:00:00 UTC" }

/-- A response without state and without diagnostics. -/
def emptyResponse : Response :=
  { State := none, Diagnostics := [] }

/-- The example world with a transport that fails on page 3. -/
def brokenWorld : World :=
  { demoWorld with
    doRequest := fun req =>
      if req.URL = "https://tableau.example/api/projects?pageNumber=3" then
        Except.error ⟨"status: 503"⟩
      else Except.ok req.URL }

/-! ## Vocabulary of the statements -/

/-- The object under the member `project` of the body of a request. -/
def submittedProject (req : Request) : Option Json :=
  req.Body.bind (Json.member "project")


/-- The transport answers `req` and the body decodes to the listing page `r`:
`http.NewRequest` accepts the request, `doRequest` returns a body and
`json.Unmarshal` decodes it. -/
def Serves (w : World) (req : Request) (r : ProjectListResponse) : Prop :=
  w.newRequestError req.Method req.URL = none ∧
    ∃ body, w.doRequest req = Except.ok body ∧ w.unmarshalList body = Except.ok r

/-- The request `req` is sent and fails with `e`: either the transport returns
`e`, or it returns a body on which `json.Unmarshal` returns `e`. -/
def FailsWith (w : World) (req : Request) (e : GoError) : Prop :=
  w.newRequestError req.Method req.URL = none ∧
    (w.doRequest req = Except.error e ∨
      ∃ body, w.doRequest req = Except.ok body ∧ w.unmarshalList body = Except.error e)

/-- Page number of the `j`-th iteration (counted from 0) of the loop that
starts at `pageNumber + 1` and increments the counter once per iteration. -/
def laterPage (pageNumber : Int) (j : Nat) : Int :=
  wrapInt (pageNumber + 1 + j)

/-- The requests of the first `k` iterations of the loop. -/
def laterRequests (c : Client) (pageNumber : Int) (k : Nat) : List Request :=
  (List.range k).map (fun j => pageRequest c (laterPage pageNumber j))

/-- The page numbers `a, a + 1, ..., b` in ascending order (none if `b < a`). -/
def pagesFromTo (a b : Int) : List Int :=
  (List.range (b + 1 - a).toNat).map (fun (j : Nat) => a + (j : Int))

/-! ## Arithmetic of the page counter -/

theorem wrapInt_succ (a : Int) : wrapInt (wrapInt a + 1) = wrapInt (a + 1) := by
  unfold wrapInt
  omega

theorem wrapInt_bounds (a : Int) : minInt ≤ wrapInt a ∧ wrapInt a ≤ maxInt := by
  unfold wrapInt minInt maxInt
  omega

theorem wrapInt_eq_self (a : Int) (h1 : minInt ≤ a) (h2 : a ≤ maxInt) : wrapInt a = a := by
  unfold wrapInt minInt maxInt at *
  omega

theorem laterPage_succ (pn : Int) (j : Nat) :
    wrapInt (laterPage pn j + 1) = laterPage pn (j + 1) := by
  unfold laterPage
  rw [wrapInt_succ]
  congr 1
  push_cast
  ring

/-- While the counter stays below the largest `int`, the `j`-th page is the
start page plus `j`. -/
theorem laterPage_eq_add (pn : Int) (j : Nat) (h : wrapInt (pn + 1) + j ≤ maxInt) :
    laterPage pn j = wrapInt (pn + 1) + j := by
  unfold laterPage wrapInt maxInt at *
  omega

theorem toNat_cases (d : Int) : (0 ≤ d ∧ (d.toNat : Int) = d) ∨ (d < 0 ∧ d.toNat = 0) := by
  rcases le_or_lt 0 d with h | h
  · exact Or.inl ⟨h, Int.toNat_of_nonneg h⟩
  · exact Or.inr ⟨h, Int.toNat_eq_zero.mpr (le_of_lt h)⟩

theorem mem_pagesFromTo (a b i : Int) : i ∈ pagesFromTo a b ↔ a ≤ i ∧ i ≤ b := by
  unfold pagesFromTo
  simp only [List.mem_map, List.mem_range]
  have hn := toNat_cases (b + 1 - a)
  generalize (b + 1 - a).toNat = n at hn
  constructor
  · rintro ⟨j, hj, rfl⟩
    omega
  · rintro ⟨h1, h2⟩
    have hi := toNat_cases (i - a)
    generalize hm : (i - a).toNat = m at hi
    exact ⟨m, by omega, by omega⟩

/-! ## One iteration of the loops -/

theorem GetProject_loop_zero (w : World) (c : Client) (x : String) (P page : Int) :
    GetProject.loop w c x P 0 page = (Outcome.timeout, []) := rfl

theorem GetProject_loop_exit (w : World) (c : Client) (x : String) (P page : Int) (fuel : Nat)
    (h : ¬ page ≤ P) :
    GetProject.loop w c x P (fuel + 1) page = (Outcome.ret none, []) := by
  simp [GetProject.loop, h]

theorem GetProject_loop_found (w : World) (c : Client) (x : String) (P page : Int) (fuel : Nat)
    (r : ProjectListResponse) (p : Project) (h : page ≤ P)
    (hs : Serves w (pageRequest c page) r)
    (hf : findProject x r.ProjectsResponse.Projects = some p) :
    GetProject.loop w c x P (fuel + 1) page = (Outcome.ret (some p), [pageRequest c page]) := by
  obtain ⟨hn, body, hd, hu⟩ := hs
  simp only [pageRequest] at hn hd
  simp [GetProject.loop, h, NewRequest, hn, hd, hu, hf, pageRequest]

theorem GetProject_loop_next (w : World) (c : Client) (x : String) (P page : Int) (fuel : Nat)
    (r : ProjectListResponse) (h : page ≤ P)
    (hs : Serves w (pageRequest c page) r)
    (hf : findProject x r.ProjectsResponse.Projects = none) :
    GetProject.loop w c x P (fuel + 1) page =
      sent (pageRequest c page) (GetProject.loop w c x P fuel (wrapInt (page + 1))) := by
  obtain ⟨hn, body, hd, hu⟩ := hs
  simp only [pageRequest] at hn hd
  simp [GetProject.loop, h, NewRequest, hn, hd, hu, hf, pageRequest]

theorem GetProject_loop_fail (w : World) (c : Client) (x : String) (P page : Int) (fuel : Nat)
    (e : GoError) (h : page ≤ P) (hs : FailsWith w (pageRequest c page) e) :
    GetProject.loop w c x P (fuel + 1) page = (Outcome.err e, [pageRequest c page]) := by
  obtain ⟨hn, hd | ⟨body, hd, hu⟩⟩ := hs <;>
    simp only [pageRequest] at hn hd <;>
    simp [GetProject.loop, h, NewRequest, hn, hd, *, pageRequest]

theorem GetProjects_loop_exit (w : World) (c : Client) (P page : Int) (fuel : Nat)
    (all : List Project) (h : ¬ page ≤ P) :
    GetProjects.loop w c P (fuel + 1) page all = (Outcome.ret all, []) := by
  simp [GetProjects.loop, h]

theorem GetProjects_loop_next (w : World) (c : Client) (P page : Int) (fuel : Nat)
    (all : List Project) (r : ProjectListResponse) (h : page ≤ P)
    (hs : Serves w (pageRequest c page) r) :
    GetProjects.loop w c P (fuel + 1) page all =
      sent (pageRequest c page) (GetProjects.loop w c P fuel (wrapInt (page + 1))
        (all ++ r.ProjectsResponse.Projects)) := by
  obtain ⟨hn, body, hd, hu⟩ := hs
  simp only [pageRequest] at hn hd
  simp [GetProjects.loop, h, NewRequest, hn, hd, hu, pageRequest]

theorem GetProjects_loop_fail (w : World) (c : Client) (P page : Int) (fuel : Nat)
    (all : List Project) (e : GoError) (h : page ≤ P)
    (hs : FailsWith w (pageRequest c page) e) :
    GetProjects.loop w c P (fuel + 1) page all = (Outcome.err e, [pageRequest c page]) := by
  obtain ⟨hn, hd | ⟨body, hd, hu⟩⟩ := hs <;>
    simp only [pageRequest] at hn hd <;>
    simp [GetProjects.loop, h, NewRequest, hn, hd, *, pageRequest]

/-! ## Several iterations -/

theorem laterPage_zero (pn : Int) : laterPage pn 0 = wrapInt (pn + 1) := by
  simp [laterPage]

/-- As long as every page visited is served and holds no match, `k` iterations
of the search loop send the `k` requests and continue with the rest of the
fuel. -/
theorem GetProject_loop_scan (w : World) (c : Client) (x : String) (P pn : Int) (k : Nat) :
    ∀ (i fuel : Nat),
      (∀ j, j < k → laterPage pn (i + j) ≤ P ∧
        ∃ r, Serves w (pageRequest c (laterPage pn (i + j))) r ∧
          findProject x r.ProjectsResponse.Projects = none) →
      GetProject.loop w c x P (fuel + k) (laterPage pn i) =
        ((GetProject.loop w c x P fuel (laterPage pn (i + k))).1,
          (List.range k).map (fun j => pageRequest c (laterPage pn (i + j))) ++
            (GetProject.loop w c x P fuel (laterPage pn (i + k))).2) := by
  induction k with
  | zero => intro i fuel _; simp
  | succ k ih =>
    intro i fuel h
    obtain ⟨hle, r, hs, hf⟩ := h 0 (Nat.succ_pos k)
    rw [Nat.add_zero] at hle hs
    have hstep : ∀ j, j < k → laterPage pn (i + 1 + j) ≤ P ∧
        ∃ r, Serves w (pageRequest c (laterPage pn (i + 1 + j))) r ∧
          findProject x r.ProjectsResponse.Projects = none := by
      intro j hj
      have := h (j + 1) (Nat.succ_lt_succ hj)
      rwa [show i + (j + 1) = i + 1 + j by omega] at this
    rw [show fuel + (k + 1) = (fuel + k) + 1 by omega,
      GetProject_loop_next w c x P _ (fuel + k) r hle hs hf, laterPage_succ, ih (i + 1) fuel hstep,
      List.range_succ_eq_map]
    simp only [sent, List.map_cons, List.map_map, List.cons_append, Nat.add_zero]
    rw [show i + 1 + k = i + (k + 1) by omega]
    congr 3
    apply List.map_congr_left
    intro j _
    simp only [Function.comp, Nat.succ_eq_add_one]
    rw [show i + 1 + j = i + (j + 1) by omega]

/-- As long as every page visited is served, `k` iterations of the collecting
loop send the `k` requests, append the items and continue with the rest of
the fuel. -/
theorem GetProjects_loop_scan (w : World) (c : Client) (P pn : Int)
    (pg : Nat → ProjectListResponse) (k : Nat) :
    ∀ (i fuel : Nat) (all : List Project),
      (∀ j, j < k → laterPage pn (i + j) ≤ P ∧
        Serves w (pageRequest c (laterPage pn (i + j))) (pg (i + j))) →
      GetProjects.loop w c P (fuel + k) (laterPage pn i) all =
        ((GetProjects.loop w c P fuel (laterPage pn (i + k))
            (all ++ ((List.range k).map
              (fun j => (pg (i + j)).ProjectsResponse.Projects)).flatten)).1,
          (List.range k).map (fun j => pageRequest c (laterPage pn (i + j))) ++
            (GetProjects.loop w c P fuel (laterPage pn (i + k))
              (all ++ ((List.range k).map
                (fun j => (pg (i + j)).ProjectsResponse.Projects)).flatten)).2) := by
  induction k with
  | zero => intro i fuel all _; simp
  | succ k ih =>
    intro i fuel all h
    obtain ⟨hle, hs⟩ := h 0 (Nat.succ_pos k)
    rw [Nat.add_zero] at hle hs
    have hstep : ∀ j, j < k → laterPage pn (i + 1 + j) ≤ P ∧
        Serves w (pageRequest c (laterPage pn (i + 1 + j))) (pg (i + 1 + j)) := by
      intro j hj
      have := h (j + 1) (Nat.succ_lt_succ hj)
      rwa [show i + (j + 1) = i + 1 + j by omega] at this
    have hmap1 : (List.range k).map (fun j => pageRequest c (laterPage pn (i + 1 + j))) =
        (List.range k).map ((fun j => pageRequest c (laterPage pn (i + j))) ∘ Nat.succ) := by
      apply List.map_congr_left
      intro j _
      simp only [Function.comp, Nat.succ_eq_add_one]
      rw [show i + 1 + j = i + (j + 1) by omega]
    have hmap2 : (List.range k).map (fun j => (pg (i + 1 + j)).ProjectsResponse.Projects) =
        (List.range k).map ((fun j => (pg (i + j)).ProjectsResponse.Projects) ∘ Nat.succ) := by
      apply List.map_congr_left
      intro j _
      simp only [Function.comp, Nat.succ_eq_add_one]
      rw [show i + 1 + j = i + (j + 1) by omega]
    rw [show fuel + (k + 1) = (fuel + k) + 1 by omega,
      GetProjects_loop_next w c P _ (fuel + k) all (pg i) hle hs, laterPage_succ,
      ih (i + 1) fuel _ hstep, List.range_succ_eq_map, hmap1, hmap2]
    simp only [sent, List.map_cons, List.map_map, List.cons_append, Nat.add_zero,
      List.flatten_cons, List.append_assoc]
    rw [show i + 1 + k = i + (k + 1) by omega]

/-! ## The first page -/

theorem GetProject_first_found (w : World) (c : Client) (x : String) (fuel : Nat)
    (r1 : ProjectListResponse) (pn P ta : Int) (p : Project)
    (h1 : Serves w (listRequest c) r1)
    (hp : w.GetPaginationNumbers r1.Pagination = Except.ok (pn, P, ta))
    (hf : findProject x r1.ProjectsResponse.Projects = some p) :
    GetProject w c fuel x = (Outcome.ret p, [listRequest c]) := by
  obtain ⟨hn, body, hd, hu⟩ := h1
  simp only [listRequest] at hn hd
  simp [GetProject, NewRequest, hn, hd, hu, hp, hf, listRequest]

theorem GetProject_first_none (w : World) (c : Client) (x : String) (fuel : Nat)
    (r1 : ProjectListResponse) (pn P ta : Int)
    (h1 : Serves w (listRequest c) r1)
    (hp : w.GetPaginationNumbers r1.Pagination = Except.ok (pn, P, ta))
    (hf : findProject x r1.ProjectsResponse.Projects = none) :
    GetProject w c fuel x =
      match GetProject.loop w c x P fuel (laterPage pn 0) with
      | (Outcome.ret (some project), trace) => (Outcome.ret project, listRequest c :: trace)
      | (Outcome.ret none, trace) => (Outcome.err (notFoundError x), listRequest c :: trace)
      | (Outcome.err e, trace) => (Outcome.err e, listRequest c :: trace)
      | (Outcome.panicked, trace) => (Outcome.panicked, listRequest c :: trace)
      | (Outcome.timeout, trace) => (Outcome.timeout, listRequest c :: trace) := by
  obtain ⟨hn, body, hd, hu⟩ := h1
  simp only [listRequest] at hn hd
  simp [GetProject, NewRequest, hn, hd, hu, hp, hf, listRequest, laterPage_zero]

theorem GetProjects_first_ok (w : World) (c : Client) (fuel : Nat)
    (r1 : ProjectListResponse) (pn P ta : Int)
    (h1 : Serves w (listRequest c) r1)
    (hp : w.GetPaginationNumbers r1.Pagination = Except.ok (pn, P, ta))
    (hta : 0 ≤ ta) (hcap : ta ≤ w.maxSliceCap) :
    GetProjects w c fuel =
      sent (listRequest c)
        (GetProjects.loop w c P fuel (laterPage pn 0) r1.ProjectsResponse.Projects) := by
  obtain ⟨hn, body, hd, hu⟩ := h1
  simp only [listRequest] at hn hd
  simp [GetProjects, NewRequest, hn, hd, hu, hp, not_lt.mpr hta, not_lt.mpr hcap, listRequest,
    laterPage_zero]

theorem GetProjects_first_panic (w : World) (c : Client) (fuel : Nat)
    (r1 : ProjectListResponse) (pn P ta : Int)
    (h1 : Serves w (listRequest c) r1)
    (hp : w.GetPaginationNumbers r1.Pagination = Except.ok (pn, P, ta))
    (hta : ta < 0 ∨ w.maxSliceCap < ta) :
    GetProjects w c fuel = (Outcome.panicked, [listRequest c]) := by
  obtain ⟨hn, body, hd, hu⟩ := h1
  simp only [listRequest] at hn hd
  simp [GetProjects, NewRequest, hn, hd, hu, hp, hta, listRequest]

theorem laterRequests_succ (c : Client) (pn : Int) (k : Nat) :
    laterRequests c pn (k + 1) =
      laterRequests c pn k ++ [pageRequest c (laterPage pn k)] := by
  simp [laterRequests, List.range_succ]

/-! ## Search by identifier -/

/-- Claim C1.  Let page 1 be served with a well-formed envelope.  If page 1
holds an item whose ID is `x`, `GetProject x` returns the first such item of
page 1 and sends exactly one request.  Otherwise, if the loop visits the pages
of iterations `0..k`, all served, none before iteration `k` holding `x`, and
the page of iteration `k` holds `x`, then `GetProject x` returns the first such
item of that page and the requests sent are page 1 followed by the pages of
iterations `0..k`, and nothing after. -/
theorem GetProject_returns_first_match (w : World) (c : Client) (x : String)
    (r1 : ProjectListResponse) (pn P ta : Int)
    (h1 : Serves w (listRequest c) r1)
    (hp : w.GetPaginationNumbers r1.Pagination = Except.ok (pn, P, ta)) :
    (∀ p, findProject x r1.ProjectsResponse.Projects = some p →
      ∀ fuel, GetProject w c fuel x = (Outcome.ret p, [listRequest c])) ∧
    (∀ (k : Nat) (pg : Nat → ProjectListResponse) (p : Project),
      findProject x r1.ProjectsResponse.Projects = none →
      (∀ j, j ≤ k → laterPage pn j ≤ P ∧ Serves w (pageRequest c (laterPage pn j)) (pg j)) →
      (∀ j, j < k → findProject x (pg j).ProjectsResponse.Projects = none) →
      findProject x (pg k).ProjectsResponse.Projects = some p →
      ∀ fuel, k < fuel →
        GetProject w c fuel x =
          (Outcome.ret p, listRequest c :: laterRequests c pn (k + 1))) := by
  refine ⟨fun p hf fuel => GetProject_first_found w c x fuel r1 pn P ta p h1 hp hf, ?_⟩
  intro k pg p hf1 hserved hnone hfound fuel hfuel
  obtain ⟨m, rfl⟩ : ∃ m, fuel = (m + 1) + k := ⟨fuel - k - 1, by omega⟩
  have hscan := GetProject_loop_scan w c x P pn k 0 (m + 1) (by
    intro j hj
    rw [Nat.zero_add]
    exact ⟨(hserved j (le_of_lt hj)).1, pg j, (hserved j (le_of_lt hj)).2, hnone j hj⟩)
  rw [Nat.zero_add] at hscan
  rw [GetProject_first_none w c x _ r1 pn P ta h1 hp hf1, hscan,
    GetProject_loop_found w c x P _ m (pg k) p (hserved k le_rfl).1 (hserved k le_rfl).2 hfound,
    laterRequests_succ]
  simp [laterRequests]

/-- In the example listing `p5` is on page 3: it is returned after three
requests.  `p1` is on page 1: it is returned after one request, even without
fuel for the loop. -/
theorem GetProject_returns_first_match_witness :
    GetProject demoWorld demoClient 2 "p5" =
        (Outcome.ret (demoProject "p5" "Research"),
          listRequest demoClient :: laterRequests demoClient 1 2) ∧
      GetProject demoWorld demoClient 0 "p1" =
        (Outcome.ret (demoProject "p1" "Sales"), [listRequest demoClient]) :=
  have h := GetProject_returns_first_match demoWorld demoClient "p5" demoPage1 1 3 5
    ⟨rfl, _, rfl, rfl⟩ rfl
  have h0 := GetProject_returns_first_match demoWorld demoClient "p1" demoPage1 1 3 5
    ⟨rfl, _, rfl, rfl⟩ rfl
  ⟨h.2 1 demoPages (demoProject "p5" "Research") (by decide)
      (by
        intro j hj
        interval_cases j
        · exact ⟨by decide, rfl, _, rfl, rfl⟩
        · exact ⟨by decide, rfl, _, rfl, rfl⟩)
      (by
        intro j hj
        interval_cases j
        decide)
      (by decide) 2 (by decide),
    h0.1 (demoProject "p1" "Sales") (by decide) 0⟩

/-! ## Running the loops to their end -/

/-- Below the largest `int` the loop visits the pages `s, s + 1, ..., P`, where
`s` is the wrapped `pageNumber + 1`, and then leaves. -/
theorem laterPage_run (pn P : Int) (hP : P < maxInt) :
    (∀ j : Nat, j < (P + 1 - wrapInt (pn + 1)).toNat →
      laterPage pn j = wrapInt (pn + 1) + j ∧ laterPage pn j ≤ P) ∧
    ¬ laterPage pn (P + 1 - wrapInt (pn + 1)).toNat ≤ P := by
  have hn := toNat_cases (P + 1 - wrapInt (pn + 1))
  have hb := wrapInt_bounds (pn + 1)
  generalize (P + 1 - wrapInt (pn + 1)).toNat = n at hn
  constructor
  · intro j hj
    have := laterPage_eq_add pn j (by omega)
    omega
  · rcases hn with ⟨h0, hn⟩ | ⟨h0, hn⟩
    · have := laterPage_eq_add pn n (by omega)
      omega
    · subst hn
      rw [laterPage_zero]
      omega

theorem laterRequests_eq_pagesFromTo (c : Client) (pn P : Int) (hP : P < maxInt) :
    laterRequests c pn (P + 1 - wrapInt (pn + 1)).toNat =
      (pagesFromTo (wrapInt (pn + 1)) P).map (pageRequest c) := by
  unfold laterRequests pagesFromTo
  rw [List.map_map]
  apply List.map_congr_left
  intro j hj
  simp only [Function.comp]
  rw [((laterPage_run pn P hP).1 j (List.mem_range.mp hj)).1]

/-- Below the largest `int` the search ends.  Let page 1 be served with an
envelope that gives a total page count `P` below the largest `int`, and let
no item of page 1 have the ID `x`.
If every page from the start page (the wrapped `pageNumber + 1`) to `P` is
served and none holds an item with ID `x`, whatever the envelopes of those
pages say, then `GetProject x`, given fuel for the iterations, returns no
entity but the error whose text is `"Did not find project ID "` followed by
`x`, and the requests it sent are page 1 and the pages from the start page to
`P`, each once and ascending: none of them is numbered above `P`. -/
theorem GetProject_not_found (w : World) (c : Client) (x : String)
    (r1 : ProjectListResponse) (pn P ta : Int)
    (h1 : Serves w (listRequest c) r1)
    (hp : w.GetPaginationNumbers r1.Pagination = Except.ok (pn, P, ta))
    (hP : P < maxInt)
    (hf1 : findProject x r1.ProjectsResponse.Projects = none)
    (hpages : ∀ i, wrapInt (pn + 1) ≤ i → i ≤ P →
      ∃ r, Serves w (pageRequest c i) r ∧ findProject x r.ProjectsResponse.Projects = none) :
    ∀ fuel, (P + 1 - wrapInt (pn + 1)).toNat < fuel →
      GetProject w c fuel x =
          (Outcome.err ⟨"Did not find project ID " ++ x⟩,
            listRequest c :: (pagesFromTo (wrapInt (pn + 1)) P).map (pageRequest c)) ∧
        ∀ i, i ∈ pagesFromTo (wrapInt (pn + 1)) P → wrapInt (pn + 1) ≤ i ∧ i ≤ P := by
  intro fuel hfuel
  refine ⟨?_, fun i hi => (mem_pagesFromTo _ _ i).mp hi⟩
  obtain ⟨hrun, hexit⟩ := laterPage_run pn P hP
  obtain ⟨m, rfl⟩ : ∃ m, fuel = (m + 1) + (P + 1 - wrapInt (pn + 1)).toNat :=
    ⟨fuel - (P + 1 - wrapInt (pn + 1)).toNat - 1, by omega⟩
  have hscan := GetProject_loop_scan w c x P pn (P + 1 - wrapInt (pn + 1)).toNat 0 (m + 1) (by
    intro j hj
    rw [Nat.zero_add]
    obtain ⟨heq, hle⟩ := hrun j hj
    refine ⟨hle, ?_⟩
    rw [heq]
    exact hpages _ (by omega) (by omega))
  rw [Nat.zero_add] at hscan
  rw [GetProject_first_none w c x _ r1 pn P ta h1 hp hf1, hscan,
    GetProject_loop_exit w c x P _ m hexit]
  have hreq := laterRequests_eq_pagesFromTo c pn P hP
  simp only [laterRequests] at hreq
  simp [notFoundError, hreq]

/-- In the example listing, of three pages, no page holds `missing`: the
search ends with the not-found error after the three pages, although the
envelopes of pages 2 and 3 are unparseable. -/
theorem GetProject_not_found_witness :
    GetProject demoWorld demoClient 3 "missing" =
        (Outcome.err ⟨"Did not find project ID " ++ "missing"⟩,
          listRequest demoClient :: (pagesFromTo (wrapInt (1 + 1)) 3).map
            (pageRequest demoClient)) ∧
      ∀ i, i ∈ pagesFromTo (wrapInt (1 + 1)) 3 → wrapInt (1 + 1) ≤ i ∧ i ≤ 3 :=
  GetProject_not_found demoWorld demoClient "missing" demoPage1 1 3 5
    ⟨rfl, _, rfl, rfl⟩ rfl (by decide) (by decide)
    (by
      intro i h2 h3
      have h2 : 2 ≤ i := h2
      interval_cases i
      · exact ⟨demoPage2, ⟨rfl, _, rfl, rfl⟩, by decide⟩
      · exact ⟨demoPage3, ⟨rfl, _, rfl, rfl⟩, by decide⟩)
    3 (by decide)

/-- Without an end: when the envelope gives the largest `int` as the total
page count and every page is served without a match, the search loop is still
running after any number of iterations. -/
theorem GetProject_endless (w : World) (c : Client) (x : String) (r1 : ProjectListResponse)
    (pn ta : Int)
    (h1 : Serves w (listRequest c) r1)
    (hp : w.GetPaginationNumbers r1.Pagination = Except.ok (pn, maxInt, ta))
    (hf1 : findProject x r1.ProjectsResponse.Projects = none)
    (hpages : ∀ j, ∃ r, Serves w (pageRequest c (laterPage pn j)) r ∧
      findProject x r.ProjectsResponse.Projects = none) (fuel : Nat) :
    GetProject w c fuel x = (Outcome.timeout, listRequest c :: laterRequests c pn fuel) := by
  have hscan := GetProject_loop_scan w c x maxInt pn fuel 0 0 (by
    intro j _
    rw [Nat.zero_add]
    exact ⟨(wrapInt_bounds _).2, hpages j⟩)
  rw [Nat.zero_add] at hscan
  rw [GetProject_first_none w c x _ r1 pn maxInt ta h1 hp hf1, hscan]
  simp [laterRequests, GetProject.loop]

/-- Claim C3, at the input where it fails.  The listing serves every request
with a page that holds no item with ID `missing`, and the envelope of page 1
gives the total page count 9223372036854775807, the largest `int`.  Every
fetch and decode succeeds and no scanned page holds `missing`, yet
`GetProject "missing"` does not end with the not-found error: whatever the
fuel, it is still running, having sent page 1 and one request for each
iteration.  The guard `page <= totalPageCount` holds for every `int`, and
`page++` turns the largest `int` (iteration 9223372036854775805) into the
smallest (the next iteration). -/
theorem GetProject_never_ends_at_largest_page_count :
    (∀ fuel, GetProject (echoWorld 1 maxInt 2) demoClient fuel "missing" =
      (Outcome.timeout, listRequest demoClient :: laterRequests demoClient 1 fuel)) ∧
    maxInt = 9223372036854775807 ∧
    laterPage 1 9223372036854775805 = maxInt ∧
    laterPage 1 9223372036854775806 = minInt :=
  ⟨fun fuel => GetProject_endless (echoWorld 1 maxInt 2) demoClient "missing" demoPage1 1 2
      ⟨rfl, _, rfl, rfl⟩ rfl (by decide)
      (fun _ => ⟨demoPage1, ⟨rfl, _, rfl, rfl⟩, by decide⟩) fuel,
    by decide, by decide, by decide⟩

/-! ## Listing all projects -/

/-- The collecting loop of `GetProjects` for any reported page number: below
the largest `int` it fetches the pages from the wrapped `pageNumber + 1` to
`totalPageCount` and returns the items of all pages in order. -/
theorem GetProjects_collects (w : World) (c : Client)
    (r1 : ProjectListResponse) (pn P ta : Int) (pg : Int → ProjectListResponse)
    (h1 : Serves w (listRequest c) r1)
    (hp : w.GetPaginationNumbers r1.Pagination = Except.ok (pn, P, ta))
    (hP : P < maxInt) (hta : 0 ≤ ta) (hcap : ta ≤ w.maxSliceCap)
    (hpages : ∀ i, wrapInt (pn + 1) ≤ i → i ≤ P → Serves w (pageRequest c i) (pg i))
    (fuel : Nat) (hfuel : (P + 1 - wrapInt (pn + 1)).toNat < fuel) :
    GetProjects w c fuel =
      (Outcome.ret (r1.ProjectsResponse.Projects ++
          ((pagesFromTo (wrapInt (pn + 1)) P).map
            (fun i => (pg i).ProjectsResponse.Projects)).flatten),
        listRequest c :: (pagesFromTo (wrapInt (pn + 1)) P).map (pageRequest c)) := by
  obtain ⟨hrun, hexit⟩ := laterPage_run pn P hP
  obtain ⟨m, rfl⟩ : ∃ m, fuel = (m + 1) + (P + 1 - wrapInt (pn + 1)).toNat :=
    ⟨fuel - (P + 1 - wrapInt (pn + 1)).toNat - 1, by omega⟩
  have hscan := GetProjects_loop_scan w c P pn (fun j => pg (laterPage pn j))
    (P + 1 - wrapInt (pn + 1)).toNat 0 (m + 1) r1.ProjectsResponse.Projects (by
      intro j hj
      rw [Nat.zero_add]
      obtain ⟨heq, hle⟩ := hrun j hj
      exact ⟨hle, hpages _ (by omega) hle⟩)
  rw [Nat.zero_add] at hscan
  rw [GetProjects_first_ok w c _ r1 pn P ta h1 hp hta hcap, hscan,
    GetProjects_loop_exit w c P _ m _ hexit]
  have hreq := laterRequests_eq_pagesFromTo c pn P hP
  simp only [laterRequests] at hreq
  have hitems : (List.range (P + 1 - wrapInt (pn + 1)).toNat).map
        (fun j => (pg (laterPage pn j)).ProjectsResponse.Projects) =
      (pagesFromTo (wrapInt (pn + 1)) P).map (fun i => (pg i).ProjectsResponse.Projects) := by
    unfold pagesFromTo
    rw [List.map_map]
    apply List.map_congr_left
    intro j hj
    simp only [Function.comp]
    rw [(hrun j (List.mem_range.mp hj)).1]
  simp [sent, hreq, hitems]

/-- Without an end: when the envelope gives the largest `int` as the total
page count and every page is served, the collecting loop is still running
after any number of iterations. -/
theorem GetProjects_endless (w : World) (c : Client) (r1 : ProjectListResponse)
    (pn ta : Int) (pg : Nat → ProjectListResponse)
    (h1 : Serves w (listRequest c) r1)
    (hp : w.GetPaginationNumbers r1.Pagination = Except.ok (pn, maxInt, ta))
    (hta : 0 ≤ ta) (hcap : ta ≤ w.maxSliceCap)
    (hpages : ∀ j, Serves w (pageRequest c (laterPage pn j)) (pg j)) (fuel : Nat) :
    GetProjects w c fuel = (Outcome.timeout, listRequest c :: laterRequests c pn fuel) := by
  have hscan := GetProjects_loop_scan w c maxInt pn pg fuel 0 0 r1.ProjectsResponse.Projects (by
    intro j _
    rw [Nat.zero_add]
    exact ⟨(wrapInt_bounds _).2, hpages j⟩)
  rw [Nat.zero_add] at hscan
  rw [GetProjects_first_ok w c _ r1 pn maxInt ta h1 hp hta hcap, hscan]
  simp [sent, laterRequests, GetProjects.loop]

/-- Counterexample to claim C2 as stated.  Against a listing that serves
every request:
(1) an envelope that reports page number 0 and one page in all makes
`GetProjects` fetch page 1 a second time and return its items twice, although
the total page count is 1;
(2) an envelope that reports a negative total item count makes it panic after
the first request;
(3) so does a total item count above the capacity that `make` provides;
(4) with the largest `int` as total page count it is still running after any
number of iterations. -/
theorem GetProjects_starts_after_reported_page :
    GetProjects (echoWorld 0 1 2) demoClient 2 =
        (Outcome.ret (demoPage1.ProjectsResponse.Projects ++
            demoPage1.ProjectsResponse.Projects),
          [listRequest demoClient, pageRequest demoClient 1]) ∧
      GetProjects (echoWorld 1 3 (-1)) demoClient 3 =
        (Outcome.panicked, [listRequest demoClient]) ∧
      GetProjects (echoWorld 1 1 2932031007403) demoClient 3 =
        (Outcome.panicked, [listRequest demoClient]) ∧
      ∀ fuel, GetProjects (echoWorld 1 maxInt 2) demoClient fuel =
        (Outcome.timeout, listRequest demoClient :: laterRequests demoClient 1 fuel) :=
  ⟨rfl, rfl, rfl, fun fuel =>
    GetProjects_endless (echoWorld 1 maxInt 2) demoClient demoPage1 1 2 (fun _ => demoPage1)
      ⟨rfl, _, rfl, rfl⟩ rfl (by decide) (by decide) (fun _ => ⟨rfl, _, rfl, rfl⟩) fuel⟩

/-- Claim C2, amended.  Let page 1 be served with an envelope that reports
the page number `pn`, a total page count `P` below the largest `int` and a
total item count `ta` that `make` accepts as a capacity (`0 ≤ ta` and `ta` not
above what the runtime provides), and let every page from the start page `s`
to `P` be served, where `s` is `pn + 1` as a Go `int`.  Then `GetProjects`,
given fuel for the iterations, sends the request for page 1 and then exactly
the requests for the pages `s, s + 1, ..., P`, in this order and each once,
none beyond `P`, and returns the items of page 1 followed by the items of
those pages in the order fetched, nothing removed.  The start page is
`pn + 1` whenever `pn` is an `int` below the largest: page 2 for an envelope
that reports page 1.  When `P` is below the start page, as for `pn = 1` and
`P = 1`, the only request is the first one. -/
theorem GetProjects_collects_all_pages (w : World) (c : Client)
    (r1 : ProjectListResponse) (pn P ta : Int) (pg : Int → ProjectListResponse)
    (h1 : Serves w (listRequest c) r1)
    (hp : w.GetPaginationNumbers r1.Pagination = Except.ok (pn, P, ta))
    (hP : P < maxInt) (hta : 0 ≤ ta) (hcap : ta ≤ w.maxSliceCap)
    (hpages : ∀ i, wrapInt (pn + 1) ≤ i → i ≤ P → Serves w (pageRequest c i) (pg i)) :
    ∀ fuel, (P + 1 - wrapInt (pn + 1)).toNat < fuel →
      GetProjects w c fuel =
          (Outcome.ret (r1.ProjectsResponse.Projects ++
              ((pagesFromTo (wrapInt (pn + 1)) P).map
                (fun i => (pg i).ProjectsResponse.Projects)).flatten),
            listRequest c :: (pagesFromTo (wrapInt (pn + 1)) P).map (pageRequest c)) ∧
        (∀ i, i ∈ pagesFromTo (wrapInt (pn + 1)) P ↔ wrapInt (pn + 1) ≤ i ∧ i ≤ P) ∧
        (minInt ≤ pn → pn < maxInt → wrapInt (pn + 1) = pn + 1) ∧
        (P < wrapInt (pn + 1) → GetProjects w c fuel =
          (Outcome.ret r1.ProjectsResponse.Projects, [listRequest c])) := by
  intro fuel hfuel
  have hall := GetProjects_collects w c r1 pn P ta pg h1 hp hP hta hcap hpages fuel hfuel
  refine ⟨hall, fun i => mem_pagesFromTo _ _ i, ?_, ?_⟩
  · intro h1 h2
    apply wrapInt_eq_self
    · unfold minInt at *
      omega
    · omega
  · intro hlt
    have hempty : pagesFromTo (wrapInt (pn + 1)) P = [] := by
      unfold pagesFromTo
      have hn := toNat_cases (P + 1 - wrapInt (pn + 1))
      have : (P + 1 - wrapInt (pn + 1)).toNat = 0 := by omega
      rw [this]
      rfl
    rw [hall, hempty]
    simp

/-- The scenario of the spec: page 1 returns 2 of 5 items with page number 1
and `totalPageCount = 3`; the pages 2 and 3 are fetched and five items come
back. -/
theorem GetProjects_collects_all_pages_witness :
    GetProjects demoWorld demoClient 3 =
        (Outcome.ret (demoPage1.ProjectsResponse.Projects ++
            ((pagesFromTo (wrapInt (1 + 1)) 3).map
              (fun i => (demoPageAt i).ProjectsResponse.Projects)).flatten),
          listRequest demoClient ::
            (pagesFromTo (wrapInt (1 + 1)) 3).map (pageRequest demoClient)) ∧
      (∀ i, i ∈ pagesFromTo (wrapInt (1 + 1)) 3 ↔ wrapInt (1 + 1) ≤ i ∧ i ≤ 3) ∧
      (minInt ≤ 1 → 1 < maxInt → wrapInt (1 + 1) = 1 + 1) ∧
      ((3 : Int) < wrapInt (1 + 1) → GetProjects demoWorld demoClient 3 =
        (Outcome.ret demoPage1.ProjectsResponse.Projects, [listRequest demoClient])) :=
  GetProjects_collects_all_pages demoWorld demoClient demoPage1 1 3 5 demoPageAt
    ⟨rfl, _, rfl, rfl⟩ rfl (by decide) (by decide) (by decide)
    (by
      intro i h2 h3
      have h2 : 2 ≤ i := h2
      interval_cases i
      · exact ⟨rfl, _, rfl, rfl⟩
      · exact ⟨rfl, _, rfl, rfl⟩)
    3 (by decide)

/-! ## Search against listing -/

/-- Whenever the collecting loop returns, the search loop run by its side with
the same fuel from the same page either returns the first collected item whose
ID is `x`, or runs to its end when no collected item has that ID. -/
theorem GetProject_loop_of_collect (w : World) (c : Client) (x : String) (P : Int) :
    ∀ (fuel : Nat) (page : Int) (all ps : List Project) (tr : List Request),
      GetProjects.loop w c P fuel page all = (Outcome.ret ps, tr) →
      ∃ rest, ps = all ++ rest ∧
        ((∃ p tr2, findProject x rest = some p ∧
            GetProject.loop w c x P fuel page = (Outcome.ret (some p), tr2)) ∨
          (findProject x rest = none ∧
            GetProject.loop w c x P fuel page = (Outcome.ret none, tr))) := by
  intro fuel
  induction fuel with
  | zero => intro page all ps tr h; simp [GetProjects.loop] at h
  | succ fuel ih =>
    intro page all ps tr h
    by_cases hle : page ≤ P
    · cases hn : w.newRequestError "GET" (pageUrl c page) with
      | some e => simp [GetProjects.loop, hle, NewRequest, hn] at h
      | none =>
        cases hd : w.doRequest ⟨"GET", pageUrl c page, none⟩ with
        | error e => simp [GetProjects.loop, hle, NewRequest, hn, hd] at h
        | ok body =>
          cases hu : w.unmarshalList body with
          | error e => simp [GetProjects.loop, hle, NewRequest, hn, hd, hu] at h
          | ok r =>
            have hs : Serves w (pageRequest c page) r := ⟨hn, body, hd, hu⟩
            rw [GetProjects_loop_next w c P page fuel all r hle hs] at h
            cases hrun : GetProjects.loop w c P fuel (wrapInt (page + 1))
                (all ++ r.ProjectsResponse.Projects) with
            | mk o t =>
              rw [hrun] at h
              simp only [sent, Prod.mk.injEq] at h
              obtain ⟨ho, ht⟩ := h
              subst ho ht
              obtain ⟨rest, hps, hcase⟩ := ih _ _ _ _ hrun
              refine ⟨r.ProjectsResponse.Projects ++ rest, by rw [hps, List.append_assoc], ?_⟩
              cases hf : findProject x r.ProjectsResponse.Projects with
              | some p =>
                left
                refine ⟨p, [pageRequest c page], ?_, GetProject_loop_found w c x P page fuel r p hle hs hf⟩
                unfold findProject at hf ⊢
                rw [List.find?_append, hf]
                rfl
              | none =>
                have hfind : findProject x (r.ProjectsResponse.Projects ++ rest) =
                    findProject x rest := by
                  unfold findProject at hf ⊢
                  rw [List.find?_append, hf]
                  rfl
                rw [hfind, GetProject_loop_next w c x P page fuel r hle hs hf]
                rcases hcase with ⟨p, tr2, hfr, hl⟩ | ⟨hfr, hl⟩
                · left
                  exact ⟨p, pageRequest c page :: tr2, hfr, by rw [hl]; rfl⟩
                · right
                  exact ⟨hfr, by rw [hl]; rfl⟩
    · rw [GetProjects_loop_exit w c P page fuel all hle] at h
      simp only [Prod.mk.injEq, Outcome.ret.injEq] at h
      obtain ⟨h1, h2⟩ := h
      subst h1 h2
      exact ⟨[], by simp, Or.inr ⟨rfl, GetProject_loop_exit w c x P page fuel hle⟩⟩

theorem findProject_append (x : String) (l1 l2 : List Project) :
    findProject x (l1 ++ l2) = (findProject x l1).or (findProject x l2) := by
  unfold findProject
  exact List.find?_append

theorem findProject_of_mem (x : String) (ps : List Project) (q : Project)
    (hq : q ∈ ps) (hid : q.ID = x) : ∃ p, findProject x ps = some p := by
  cases hf : findProject x ps with
  | some p => exact ⟨p, rfl⟩
  | none =>
    unfold findProject at hf
    have := List.find?_eq_none.mp hf q hq
    simp [hid] at this

/-- Claim C4.  If `GetProjects` returns a list that holds an item with ID `x`,
then `GetProject x`, run against the same listing with the same fuel, returns
without error the first item of that list whose ID is `x`. -/
theorem GetProject_agrees_with_GetProjects (w : World) (c : Client) (x : String)
    (fuel : Nat) (ps : List Project) (tr : List Request)
    (hlist : GetProjects w c fuel = (Outcome.ret ps, tr))
    (hmem : ∃ q, q ∈ ps ∧ q.ID = x) :
    ∃ p tr2, findProject x ps = some p ∧ GetProject w c fuel x = (Outcome.ret p, tr2) := by
  obtain ⟨q, hq, hid⟩ := hmem
  obtain ⟨p, hfp⟩ := findProject_of_mem x ps q hq hid
  cases hn : w.newRequestError "GET" (listUrl c) with
  | some e => simp [GetProjects, NewRequest, hn] at hlist
  | none =>
    cases hd : w.doRequest ⟨"GET", listUrl c, none⟩ with
    | error e => simp [GetProjects, NewRequest, hn, hd] at hlist
    | ok body =>
      cases hu : w.unmarshalList body with
      | error e => simp [GetProjects, NewRequest, hn, hd, hu] at hlist
      | ok r1 =>
        cases hp : w.GetPaginationNumbers r1.Pagination with
        | error e => simp [GetProjects, NewRequest, hn, hd, hu, hp] at hlist
        | ok nums =>
          obtain ⟨pn, P, ta⟩ := nums
          have h1 : Serves w (listRequest c) r1 := ⟨hn, body, hd, hu⟩
          by_cases hta : ta < 0 ∨ w.maxSliceCap < ta
          · rw [GetProjects_first_panic w c fuel r1 pn P ta h1 hp hta] at hlist
            simp at hlist
          · rw [not_or] at hta
            rw [GetProjects_first_ok w c fuel r1 pn P ta h1 hp (not_lt.mp hta.1)
              (not_lt.mp hta.2)] at hlist
            cases hrun : GetProjects.loop w c P fuel (laterPage pn 0)
                r1.ProjectsResponse.Projects with
            | mk o t =>
              rw [hrun] at hlist
              simp only [sent, Prod.mk.injEq] at hlist
              obtain ⟨ho, _⟩ := hlist
              subst ho
              obtain ⟨rest, hps, hcase⟩ := GetProject_loop_of_collect w c x P fuel _ _ _ _ hrun
              rw [hps, findProject_append] at hfp
              refine ⟨p, ?_⟩
              rw [hps, findProject_append]
              cases hf1 : findProject x r1.ProjectsResponse.Projects with
              | some p1 =>
                rw [hf1] at hfp
                simp only [Option.or_some, Option.some.injEq] at hfp
                subst hfp
                exact ⟨[listRequest c], rfl,
                  GetProject_first_found w c x fuel r1 pn P ta p1 h1 hp hf1⟩
              | none =>
                rw [hf1] at hfp
                simp only [Option.none_or] at hfp
                rw [GetProject_first_none w c x fuel r1 pn P ta h1 hp hf1]
                rcases hcase with ⟨p2, tr2, hfr, hl⟩ | ⟨hfr, _⟩
                · rw [hfr] at hfp
                  simp only [Option.some.injEq] at hfp
                  subst hfp
                  exact ⟨listRequest c :: tr2, by simp [hfr], by rw [hl]⟩
                · rw [hfr] at hfp
                  simp at hfp

/-- In the example listing `GetProjects` returns the five projects, and
`GetProject "p4"` returns the item of that list whose ID is `p4`. -/
theorem GetProject_agrees_with_GetProjects_witness :
    ∃ p tr2,
      findProject "p4" (demoPage1.ProjectsResponse.Projects ++
          (demoPage2.ProjectsResponse.Projects ++ demoPage3.ProjectsResponse.Projects)) =
        some p ∧
      GetProject demoWorld demoClient 3 "p4" = (Outcome.ret p, tr2) :=
  GetProject_agrees_with_GetProjects demoWorld demoClient "p4" 3
    (demoPage1.ProjectsResponse.Projects ++
      (demoPage2.ProjectsResponse.Projects ++ demoPage3.ProjectsResponse.Projects))
    [listRequest demoClient, pageRequest demoClient 2, pageRequest demoClient 3]
    rfl ⟨demoProject "p4" "Support", by decide, rfl⟩

/-! ## Errors -/

theorem GetProjects_first_fail (w : World) (c : Client) (fuel : Nat) (e : GoError)
    (h : FailsWith w (listRequest c) e) :
    GetProjects w c fuel = (Outcome.err e, [listRequest c]) := by
  obtain ⟨hn, hd | ⟨body, hd, hu⟩⟩ := h <;>
    simp only [listRequest] at hn hd <;>
    simp [GetProjects, NewRequest, hn, hd, *, listRequest]

theorem GetProject_first_fail (w : World) (c : Client) (x : String) (fuel : Nat) (e : GoError)
    (h : FailsWith w (listRequest c) e) :
    GetProject w c fuel x = (Outcome.err e, [listRequest c]) := by
  obtain ⟨hn, hd | ⟨body, hd, hu⟩⟩ := h <;>
    simp only [listRequest] at hn hd <;>
    simp [GetProject, NewRequest, hn, hd, *, listRequest]

theorem GetProjects_envelope_fail (w : World) (c : Client) (fuel : Nat)
    (r1 : ProjectListResponse) (e : GoError) (h1 : Serves w (listRequest c) r1)
    (hp : w.GetPaginationNumbers r1.Pagination = Except.error e) :
    GetProjects w c fuel = (Outcome.err e, [listRequest c]) := by
  obtain ⟨hn, body, hd, hu⟩ := h1
  simp only [listRequest] at hn hd
  simp [GetProjects, NewRequest, hn, hd, hu, hp, listRequest]

theorem GetProject_envelope_fail (w : World) (c : Client) (x : String) (fuel : Nat)
    (r1 : ProjectListResponse) (e : GoError) (h1 : Serves w (listRequest c) r1)
    (hp : w.GetPaginationNumbers r1.Pagination = Except.error e) :
    GetProject w c fuel x = (Outcome.err e, [listRequest c]) := by
  obtain ⟨hn, body, hd, hu⟩ := h1
  simp only [listRequest] at hn hd
  simp [GetProject, NewRequest, hn, hd, hu, hp, listRequest]

/-- Claim C8.  For `GetProjects` and `GetProject x` alike:
(1) if the request for page 1 fails with `e`, in the transport or in decoding,
the operation returns `e` and no result, and page 1 is the only request;
(2) if page 1 is served but its pagination envelope is rejected with `e`, the
operation returns `e` and no result, and page 1 is the only request, so no
later page is fetched;
(3) if page 1 and the pages of the loop iterations before `k` are served and
the request of iteration `k` is sent and fails with `e`, the operation returns
`e` and no result, and the requests sent are page 1 and the pages of the
iterations `0..k`, the failing one last and sent once.  The request of
iteration `k` is sent by `GetProject` when no page before it holds a match,
and by `GetProjects` when `make` accepts the total item count as a capacity
(not negative, not above what the runtime provides): otherwise its run ends
before the loop, with page 1 as the only request. -/
theorem page_errors_propagate (w : World) (c : Client) (x : String) :
    (∀ e, FailsWith w (listRequest c) e → ∀ fuel,
      GetProjects w c fuel = (Outcome.err e, [listRequest c]) ∧
      GetProject w c fuel x = (Outcome.err e, [listRequest c])) ∧
    (∀ r1 e, Serves w (listRequest c) r1 →
      w.GetPaginationNumbers r1.Pagination = Except.error e → ∀ fuel,
      GetProjects w c fuel = (Outcome.err e, [listRequest c]) ∧
      GetProject w c fuel x = (Outcome.err e, [listRequest c])) ∧
    (∀ r1 pn P ta (k : Nat) (pg : Nat → ProjectListResponse) e,
      Serves w (listRequest c) r1 →
      w.GetPaginationNumbers r1.Pagination = Except.ok (pn, P, ta) →
      (∀ j, j < k → laterPage pn j ≤ P ∧ Serves w (pageRequest c (laterPage pn j)) (pg j)) →
      laterPage pn k ≤ P →
      FailsWith w (pageRequest c (laterPage pn k)) e →
      ∀ fuel, k < fuel →
        (0 ≤ ta → ta ≤ w.maxSliceCap →
          GetProjects w c fuel = (Outcome.err e, listRequest c :: laterRequests c pn (k + 1))) ∧
        (findProject x r1.ProjectsResponse.Projects = none →
          (∀ j, j < k → findProject x (pg j).ProjectsResponse.Projects = none) →
          GetProject w c fuel x =
            (Outcome.err e, listRequest c :: laterRequests c pn (k + 1))) ∧
        (ta < 0 ∨ w.maxSliceCap < ta →
          GetProjects w c fuel = (Outcome.panicked, [listRequest c]))) := by
  refine ⟨fun e h fuel => ⟨GetProjects_first_fail w c fuel e h, GetProject_first_fail w c x fuel e h⟩,
    fun r1 e h1 hp fuel => ⟨GetProjects_envelope_fail w c fuel r1 e h1 hp,
      GetProject_envelope_fail w c x fuel r1 e h1 hp⟩, ?_⟩
  intro r1 pn P ta k pg e h1 hp hserved hle hfail fuel hfuel
  obtain ⟨m, rfl⟩ : ∃ m, fuel = (m + 1) + k := ⟨fuel - k - 1, by omega⟩
  refine ⟨?_, ?_, fun hta => GetProjects_first_panic w c _ r1 pn P ta h1 hp hta⟩
  · intro hta hcap
    have hscan := GetProjects_loop_scan w c P pn pg k 0 (m + 1) r1.ProjectsResponse.Projects (by
      intro j hj
      rw [Nat.zero_add]
      exact hserved j hj)
    rw [Nat.zero_add] at hscan
    rw [GetProjects_first_ok w c _ r1 pn P ta h1 hp hta hcap, hscan,
      GetProjects_loop_fail w c P _ m _ e hle hfail, laterRequests_succ]
    simp [sent, laterRequests]
  · intro hf1 hnone
    have hscan := GetProject_loop_scan w c x P pn k 0 (m + 1) (by
      intro j hj
      rw [Nat.zero_add]
      exact ⟨(hserved j hj).1, pg j, (hserved j hj).2, hnone j hj⟩)
    rw [Nat.zero_add] at hscan
    rw [GetProject_first_none w c x _ r1 pn P ta h1 hp hf1, hscan,
      GetProject_loop_fail w c x P _ m e hle hfail, laterRequests_succ]
    simp [laterRequests]

/-- With a transport that fails on page 3 of the example listing, both
operations return that error after the three requests. -/
theorem page_errors_propagate_witness :
    GetProjects brokenWorld demoClient 2 =
        (Outcome.err ⟨"status: 503"⟩, listRequest demoClient :: laterRequests demoClient 1 2) ∧
      GetProject brokenWorld demoClient 2 "p5" =
        (Outcome.err ⟨"status: 503"⟩, listRequest demoClient :: laterRequests demoClient 1 2) :=
  have h := (page_errors_propagate brokenWorld demoClient "p5").2.2 demoPage1 1 3 5 1 demoPages
    ⟨"status: 503"⟩ ⟨rfl, _, rfl, rfl⟩ rfl
    (by
      intro j hj
      interval_cases j
      exact ⟨by decide, rfl, _, rfl, rfl⟩)
    (by decide) ⟨rfl, Or.inl rfl⟩ 2 (by decide)
  ⟨h.1 (by decide) (by decide), h.2.1 (by decide) (by
    intro j hj
    interval_cases j
    decide)⟩

/-! ## Request bodies of create and update -/

/-- Counterexample to claim C6 as stated.  Updating with an empty parent and an
empty description sends a body whose project object has the members `name`,
`contentPermissions` and `owner`, but neither `parentProjectId` nor
`description`: the empty fields are left out. -/
theorem UpdateProject_omits_empty_fields :
    (UpdateProject demoWorld demoClient "p1" "Sales" "" "" "ManagedByOwner" "owner-123").2.map
        (fun req => (submittedProject req).map (fun project =>
          [project.hasMember "name", project.hasMember "parentProjectId",
            project.hasMember "description", project.hasMember "contentPermissions",
            project.hasMember "owner"])) =
      [some [true, false, false, true, true]] := by
  decide

theorem submitProject_trace (w : World) (req : Request) :
    (submitProject w req).2 = [req] := by
  unfold submitProject
  split
  · rfl
  · split <;> rfl

theorem UpdateProject_trace (w : World) (c : Client)
    (projectID name parentProjectId description contentPermissions ownerId : String)
    (hn : w.newRequestError "PUT" (projectUrl c projectID) = none) :
    (UpdateProject w c projectID name parentProjectId description contentPermissions ownerId).2 =
      [⟨"PUT", projectUrl c projectID, some (marshalProjectRequest w
        ⟨UpdateProject.newProject name parentProjectId description contentPermissions
          ownerId⟩)⟩] := by
  simp only [UpdateProject, NewRequest, hn, submitProject_trace]

/-- Claim C6, amended.  `UpdateProject` builds an entity that holds the five
given values, empty or not.  If `http.NewRequest` rejects the request it
returns that error and sends nothing.  Otherwise it sends exactly one request,
`PUT {ApiUrl}/projects/{id}`, with a body of the shape `{"project": {...}}`:
in it each of `name`, `parentProjectId`, `description` and
`contentPermissions` is present with exactly the given value when that value
is not empty, and absent when it is empty; the member `owner` is always
present and encodes the owner with the given id. -/
theorem UpdateProject_request_body (w : World) (c : Client)
    (projectID name parentProjectId description contentPermissions ownerId : String) :
    ∃ project,
      project = marshalProject w
        { ID := "", Name := name, ParentProjectID := parentProjectId,
          Description := description, ContentPermissions := contentPermissions,
          Owner := { ID := ownerId } } ∧
      project.member "name" = (if name = "" then none else some (Json.str name)) ∧
      project.member "parentProjectId" =
        (if parentProjectId = "" then none else some (Json.str parentProjectId)) ∧
      project.member "description" =
        (if description = "" then none else some (Json.str description)) ∧
      project.member "contentPermissions" =
        (if contentPermissions = "" then none else some (Json.str contentPermissions)) ∧
      project.member "owner" = some (w.ownerJson { ID := ownerId }) ∧
      match w.newRequestError "PUT" (projectUrl c projectID) with
      | some e =>
        UpdateProject w c projectID name parentProjectId description contentPermissions
          ownerId = (Outcome.err e, [])
      | none =>
        (UpdateProject w c projectID name parentProjectId description contentPermissions
          ownerId).2 =
          [⟨"PUT", projectUrl c projectID, some (Json.obj [("project", project)])⟩] := by
  refine ⟨marshalProject w
    { ID := "", Name := name, ParentProjectID := parentProjectId,
      Description := description, ContentPermissions := contentPermissions,
      Owner := { ID := ownerId } }, rfl, ?_, ?_, ?_, ?_, ?_, ?_⟩
  iterate 5
    by_cases h1 : name = "" <;> by_cases h2 : parentProjectId = "" <;>
      by_cases h3 : description = "" <;> by_cases h4 : contentPermissions = "" <;>
      simp [marshalProject, omitemptyString, Json.member, List.lookup, h1, h2, h3, h4]
  cases hn : w.newRequestError "PUT" (projectUrl c projectID) with
  | some e => simp [UpdateProject, NewRequest, hn]
  | none =>
    exact UpdateProject_trace w c projectID name parentProjectId description
      contentPermissions ownerId hn

theorem CreateProject_trace (w : World) (c : Client)
    (name parentProjectId description contentPermissions ownerId : String)
    (hn : w.newRequestError "POST" (listUrl c) = none) :
    (CreateProject w c name parentProjectId description contentPermissions ownerId).2 =
      [⟨"POST", listUrl c, some (marshalProjectRequest w
        ⟨CreateProject.newProject name parentProjectId description contentPermissions
          ownerId⟩)⟩] := by
  simp only [CreateProject, NewRequest, hn, submitProject_trace]

/-- The entities of create and update: for all field values the entity that
`CreateProject` builds equals the one that `UpdateProject` builds, and its
owner holds the given id, empty or not. -/
theorem CreateProject_newProject_eq (name parentProjectId description contentPermissions
    ownerId : String) :
    CreateProject.newProject name parentProjectId description contentPermissions ownerId =
        UpdateProject.newProject name parentProjectId description contentPermissions ownerId ∧
      (CreateProject.newProject name parentProjectId description contentPermissions
        ownerId).Owner = { ID := ownerId } := by
  by_cases h : ownerId = ""
  · subst h
    simp [CreateProject.newProject, UpdateProject.newProject]
  · simp [CreateProject.newProject, UpdateProject.newProject, h]

/-- Claim C7, at the input where it fails: the empty owner id.  For every
name, parent, description and content permissions, the document that
`CreateProject` submits under `project` (in its one request `POST
{ApiUrl}/projects`, unless `http.NewRequest` rejects it) is the encoding of the
entity with the owner `Owner{ID: ""}`; it has the member `owner`, and it is the
very document that `UpdateProject` submits for the same values.  The guard
`ownerId != ""` of `CreateProject` skips an assignment that would store the
zero value the field already has, and `omitempty` does not omit a struct
value: the owner reference is not left out. -/
theorem CreateProject_submits_empty_owner (w : World) (c : Client)
    (name parentProjectId description contentPermissions : String) :
    ∃ project,
      project = marshalProject w
        { ID := "", Name := name, ParentProjectID := parentProjectId,
          Description := description, ContentPermissions := contentPermissions,
          Owner := { ID := "" } } ∧
      project.member "owner" = some (w.ownerJson { ID := "" }) ∧
      (match w.newRequestError "POST" (listUrl c) with
        | some e =>
          CreateProject w c name parentProjectId description contentPermissions "" =
            (Outcome.err e, [])
        | none =>
          (CreateProject w c name parentProjectId description contentPermissions "").2 =
            [⟨"POST", listUrl c, some (Json.obj [("project", project)])⟩]) ∧
      (∀ projectID,
        match w.newRequestError "PUT" (projectUrl c projectID) with
        | some e =>
          UpdateProject w c projectID name parentProjectId description contentPermissions "" =
            (Outcome.err e, [])
        | none =>
          (UpdateProject w c projectID name parentProjectId description contentPermissions
            "").2 =
            [⟨"PUT", projectUrl c projectID, some (Json.obj [("project", project)])⟩]) ∧
      CreateProject.newProject name parentProjectId description contentPermissions "" =
        UpdateProject.newProject name parentProjectId description contentPermissions "" := by
  refine ⟨marshalProject w
    { ID := "", Name := name, ParentProjectID := parentProjectId,
      Description := description, ContentPermissions := contentPermissions,
      Owner := { ID := "" } }, rfl, ?_, ?_, ?_,
    (CreateProject_newProject_eq name parentProjectId description contentPermissions "").1⟩
  · by_cases h1 : name = "" <;> by_cases h2 : parentProjectId = "" <;>
      by_cases h3 : description = "" <;> by_cases h4 : contentPermissions = "" <;>
      simp [marshalProject, omitemptyString, Json.member, List.lookup, h1, h2, h3, h4]
  · cases hn : w.newRequestError "POST" (listUrl c) with
    | some e => simp [CreateProject, NewRequest, hn]
    | none =>
      exact CreateProject_trace w c name parentProjectId description contentPermissions "" hn
  · intro projectID
    cases hn : w.newRequestError "PUT" (projectUrl c projectID) with
    | some e => simp [UpdateProject, NewRequest, hn]
    | none =>
      exact UpdateProject_trace w c projectID name parentProjectId description
        contentPermissions "" hn

/-- The example of `CreateProject("Sales", "", "", "ManagedByOwner", "")`: the
request body has the member `owner`, and the document under `project` is the
one that `UpdateProject` submits for the same values. -/
theorem CreateProject_submits_empty_owner_example :
    (CreateProject demoWorld demoClient "Sales" "" "" "ManagedByOwner" "").2.map
        (fun req => (submittedProject req).map (fun project =>
          [project.hasMember "name", project.hasMember "parentProjectId",
            project.hasMember "description", project.hasMember "contentPermissions",
            project.hasMember "owner"])) =
      [some [true, false, false, true, true]] ∧
    (CreateProject demoWorld demoClient "Sales" "" "" "ManagedByOwner" "").2.map
        submittedProject =
      (UpdateProject demoWorld demoClient "p1" "Sales" "" "" "ManagedByOwner" "").2.map
        submittedProject :=
  ⟨by decide, rfl⟩

/-! ## State refresh of the resource -/

/-- Claim C5.  When reading the prior state `s` produced no error diagnostic
and `GetProject` returns the project `p`, `Read` records a state in which ID,
Name, OwnerID (from `p.Owner.ID`), Description and ContentPermissions are the
values of `p`, empty or not; ParentProjectID is the value of `p` when that is
not empty and is the one of `s` otherwise; LastUpdated is the one of `s`. -/
theorem Read_refreshes_state (w : World) (c : Client) (fuel : Nat) (s : projectResourceModel)
    (diags : List Diagnostic) (resp : Response) (p : Project) (tr : List Request)
    (hd : Diagnostics.HasError (Diagnostics.Append resp.Diagnostics diags) = false)
    (hg : GetProject w c fuel s.ID.ValueString = (Outcome.ret p, tr)) :
    Read w c fuel s diags resp =
      (Outcome.ret
        { State := some
            { ID := TfString.value p.ID,
              Name := TfString.value p.Name,
              ParentProjectID :=
                if p.ParentProjectID = "" then s.ParentProjectID
                else TfString.value p.ParentProjectID,
              Description := TfString.value p.Description,
              ContentPermissions := TfString.value p.ContentPermissions,
              OwnerID := TfString.value p.Owner.ID,
              LastUpdated := s.LastUpdated },
          Diagnostics := Diagnostics.Append resp.Diagnostics diags }, tr) := by
  by_cases hpar : p.ParentProjectID = "" <;>
    simp [Read, hd, hg, hpar, Response.SetState, types.StringValue]

/-- Reading the example state of project `p3`, whose observed parent and
description are empty: the description is overwritten with the empty string,
the recorded parent `root` stays. -/
theorem Read_refreshes_state_witness :
    Read demoWorld demoClient 2 demoState [] emptyResponse =
      (Outcome.ret
        { State := some
            { ID := TfString.value "p3",
              Name := TfString.value "Legal",
              ParentProjectID := TfString.value "root",
              Description := TfString.value "",
              ContentPermissions := TfString.value "ManagedByOwner",
              OwnerID := TfString.value "owner-123",
              LastUpdated := TfString.value "Monday, 02-Nov-26 10:00:00 UTC" },
          Diagnostics := [] },
        [listRequest demoClient, pageRequest demoClient 2]) :=
  Read_refreshes_state demoWorld demoClient 2 demoState [] emptyResponse
    (demoProject "p3" "Legal") [listRequest demoClient, pageRequest demoClient 2] rfl rfl

/-- Claim C9.  When reading the prior state produced no error diagnostic and
`GetProject` returns an error, whatever it is, `Read` returns with the resource
removed from the state, with the diagnostics it had before the call, none of
them an error, and with no state recorded. -/
theorem Read_removes_resource_on_error (w : World) (c : Client) (fuel : Nat)
    (s : projectResourceModel) (diags : List Diagnostic) (resp : Response) (e : GoError)
    (tr : List Request)
    (hd : Diagnostics.HasError (Diagnostics.Append resp.Diagnostics diags) = false)
    (hg : GetProject w c fuel s.ID.ValueString = (Outcome.err e, tr)) :
    ∃ out, Read w c fuel s diags resp = (Outcome.ret out, tr) ∧
      out.State = none ∧
      out.Diagnostics = Diagnostics.Append resp.Diagnostics diags ∧
      Diagnostics.HasError out.Diagnostics = false := by
  refine ⟨{ State := none, Diagnostics := Diagnostics.Append resp.Diagnostics diags }, ?_, rfl, rfl, hd⟩
  simp [Read, hd, hg, Response.RemoveResource]

/-- A transport failure on page 3 while reading project `p5`, which exists:
the resource is removed from the state and no diagnostic is recorded. -/
theorem Read_removes_resource_on_error_witness :
    ∃ out, Read brokenWorld demoClient 2 { demoState with ID := TfString.value "p5" } []
          { State := some demoState, Diagnostics := [] } =
        (Outcome.ret out,
          [listRequest demoClient, pageRequest demoClient 2, pageRequest demoClient 3]) ∧
      out.State = none ∧
      out.Diagnostics = Diagnostics.Append [] [] ∧
      Diagnostics.HasError out.Diagnostics = false :=
  Read_removes_resource_on_error brokenWorld demoClient 2
    { demoState with ID := TfString.value "p5" } []
    { State := some demoState, Diagnostics := [] } ⟨"status: 503"⟩
    [listRequest demoClient, pageRequest demoClient 2, pageRequest demoClient 3] rfl rfl

/-- Claim C10.  When reading the plan produced no error diagnostic and both
`UpdateProject` and the read-back `GetProject` succeed, the latter with the
project `p`, `Update` records a state in which ParentProjectID is the value of
`p`, empty or not, when the planned parent is not empty, and is the planned
attribute otherwise; Name, OwnerID, Description and ContentPermissions are the
values of `p`; ID is the planned one; LastUpdated is the current time. -/
theorem Update_records_observed (w : World) (c : Client) (fuel : Nat) (now : String)
    (plan : projectResourceModel) (diags : List Diagnostic) (resp : Response)
    (u p : Project) (tr1 tr2 : List Request)
    (hd : Diagnostics.HasError (Diagnostics.Append resp.Diagnostics diags) = false)
    (hu : UpdateProject w c plan.ID.ValueString plan.Name.ValueString
      plan.ParentProjectID.ValueString plan.Description.ValueString
      plan.ContentPermissions.ValueString plan.OwnerID.ValueString = (Outcome.ret u, tr1))
    (hg : GetProject w c fuel plan.ID.ValueString = (Outcome.ret p, tr2)) :
    Update w c fuel now plan diags resp =
      (Outcome.ret
        { State := some
            { ID := plan.ID,
              Name := TfString.value p.Name,
              ParentProjectID :=
                if plan.ParentProjectID.ValueString = "" then plan.ParentProjectID
                else TfString.value p.ParentProjectID,
              Description := TfString.value p.Description,
              ContentPermissions := TfString.value p.ContentPermissions,
              OwnerID := TfString.value p.Owner.ID,
              LastUpdated := TfString.value now },
          Diagnostics := Diagnostics.Append resp.Diagnostics diags }, tr1 ++ tr2) := by
  simp only [Update, hd, hu, hg]
  by_cases hpar : plan.ParentProjectID.ValueString = "" <;>
    simp [hpar, Response.SetState, types.StringValue]

/-- Updating the example state of project `p3`, whose planned parent is `root`
while the observed parent is empty: the recorded parent becomes empty. -/
theorem Update_records_observed_witness :
    Update demoWorld demoClient 2 "Wednesday, 04-Nov-26 12:00:00 UTC" demoState []
        emptyResponse =
      (Outcome.ret
        { State := some
            { ID := TfString.value "p3",
              Name := TfString.value "Legal",
              ParentProjectID := TfString.value "",
              Description := TfString.value "",
              ContentPermissions := TfString.value "ManagedByOwner",
              OwnerID := TfString.value "owner-123",
              LastUpdated := TfString.value "Wednesday, 04-Nov-26 12:00:00 UTC" },
          Diagnostics := [] },
        (UpdateProject demoWorld demoClient "p3" "Old name" "root" "" "LockedToProject" "").2 ++
          [listRequest demoClient, pageRequest demoClient 2]) :=
  Update_records_observed demoWorld demoClient 2 "Wednesday, 04-Nov-26 12:00:00 UTC" demoState
    [] emptyResponse (demoProject "p1" "Sales") (demoProject "p3" "Legal") _
    [listRequest demoClient, pageRequest demoClient 2] rfl rfl rfl

end Tableau
